import Mathlib

/-!
# Verification of the recipe catalog service

Shallow embedding of the recipe API of this repository, centred on
`recipe/views.py` (`RecipeViewSet`) and `recipe/serializers.py`
(`RecipeSerializer`).  The relational state (`Db`) models the rows the
Django ORM manipulates: `Recipe`, `Tag`, `Ingredient` rows and the two
many-to-many association tables behind `recipe.tags` / `recipe.ingredients`.
The scalar fields of the models are taken from the serializer `Meta.fields`
lists and the spec's data-model section (`core/models.py` itself is not part
of the sources; its fields are fixed by the serializers that are).
-/

/-- A `Tag` or `Ingredient` row: `{id, name, owner}`.  The two Django models
are structurally identical (`core.models.Tag` / `core.models.Ingredient`),
so a single row type is used for both, kept in two separate tables of `Db`. -/
structure ChildRow where
  id : Nat
  user : Nat
  name : String
deriving DecidableEq

/-- `core.models.Tag` rows. -/
abbrev Tag := ChildRow

/-- `core.models.Ingredient` rows. -/
abbrev Ingredient := ChildRow

/-- A `Recipe` row (scalar columns only; the `tags`/`ingredients`
many-to-many links live in the association tables of `Db`).  `price` is a
non-negative fixed-precision decimal, modelled in minor units. -/
structure Recipe where
  id : Nat
  user : Nat
  title : String
  timeMinutes : Nat
  price : Nat
  link : String
  description : String
  image : Option String
deriving DecidableEq

/-- The relational store: one table per model, the two many-to-many
association tables (pairs `(recipe_id, child_id)`), and the auto-increment
counters for primary keys. -/
structure Db where
  recipes : List Recipe
  tags : List ChildRow
  ingredients : List ChildRow
  recipeTags : List (Nat × Nat)
  recipeIngredients : List (Nat × Nat)
  nextRecipeId : Nat
  nextTagId : Nat
  nextIngredientId : Nat
deriving DecidableEq

/-- `Tag.objects.get_or_create(user=..., name=...)` (identically for
`Ingredient`): Django runs `get()` first — no row: create a fresh one;
exactly one row: return it; several matching rows raise
`MultipleObjectsReturned` (modelled as the error case). -/
def childGetOrCreate (rows : List ChildRow) (nextId : Nat) (user : Nat)
    (name : String) : Except Unit (ChildRow × List ChildRow × Nat) :=
  match rows.filter (fun t => t.user == user && t.name == name) with
  | [] =>
      let t : ChildRow := ⟨nextId, user, name⟩
      .ok (t, rows ++ [t], nextId + 1)
  | [t] => .ok (t, rows, nextId)
  | _ => .error ()

/-- `recipe.tags.add(obj)`: insert the association row unless it is already
present (Django's m2m `add` is idempotent). -/
def m2mAdd (links : List (Nat × Nat)) (rid cid : Nat) : List (Nat × Nat) :=
  if (rid, cid) ∈ links then links else links ++ [(rid, cid)]

/-- `recipe.tags.clear()`: delete every association row of this recipe. -/
def m2mClear (links : List (Nat × Nat)) (rid : Nat) : List (Nat × Nat) :=
  links.filter (fun q => q.1 != rid)

/-- The loop body of `RecipeSerializer._get_or_create_tags` /
`_get_or_create_ingredients`, iterated over the validated spec list: each
spec is `{name}` (the nested `TagSerializer`/`IngredientSerializer` has
`id` read-only, so `name` is the only writable key), looked up or created
scoped to the authenticated user, then linked to the recipe. -/
def getOrCreateLoop (rows : List ChildRow) (nextId : Nat)
    (links : List (Nat × Nat)) (user rid : Nat) :
    List String → Except Unit (List ChildRow × Nat × List (Nat × Nat))
  | [] => .ok (rows, nextId, links)
  | n :: rest =>
    match childGetOrCreate rows nextId user n with
    | .error e => .error e
    | .ok (t, rows1, nid1) =>
        getOrCreateLoop rows1 nid1 (m2mAdd links rid t.id) user rid rest

/-- `RecipeSerializer._get_or_create_tags(tags, recipe)` acting on the
tag table and the recipe-tag association table of the store. -/
def getOrCreateTags (db : Db) (user : Nat) (specs : List String)
    (rid : Nat) : Except Unit Db :=
  match getOrCreateLoop db.tags db.nextTagId db.recipeTags user rid specs with
  | .error e => .error e
  | .ok (rows, nid, links) =>
      .ok { db with tags := rows, nextTagId := nid, recipeTags := links }

/-- `RecipeSerializer._get_or_create_ingredients(ingredients, recipe)`. -/
def getOrCreateIngredients (db : Db) (user : Nat) (specs : List String)
    (rid : Nat) : Except Unit Db :=
  match getOrCreateLoop db.ingredients db.nextIngredientId
      db.recipeIngredients user rid specs with
  | .error e => .error e
  | .ok (rows, nid, links) =>
      .ok { db with ingredients := rows, nextIngredientId := nid, recipeIngredients := links }

/-- The validated payload of a recipe partial/full update.  Each serializer
field may be absent (`none`).  `validated_data` never contains a `user` key:
`user` is not among the serializer's declared `Meta.fields`, so any
`user`/`owner` key of the request body is dropped at validation. -/
structure UpdatePayload where
  title : Option String
  timeMinutes : Option Nat
  price : Option Nat
  link : Option String
  description : Option String
  tags : Option (List String)
  ingredients : Option (List String)

/-- The `setattr` loop plus `instance.save()` at the end of
`RecipeSerializer.update`: by then `tags`/`ingredients` have been popped
from `validated_data`, so only the scalar columns are written. -/
def setScalarAttrs (r : Recipe) (v : UpdatePayload) : Recipe :=
  { r with
    title := v.title.getD r.title
    timeMinutes := v.timeMinutes.getD r.timeMinutes
    price := v.price.getD r.price
    link := v.link.getD r.link
    description := v.description.getD r.description }

/-- Persist the scalar updates of recipe `rid`. -/
def saveRecipe (db : Db) (rid : Nat) (v : UpdatePayload) : Db :=
  { db with recipes :=
      db.recipes.map (fun r => if r.id == rid then setScalarAttrs r v else r) }

/-- `RecipeSerializer.update(instance, validated_data)`:
`tags = validated_data.pop("tags", None)` — only when the key was present
(`is not None`) clear the existing links and re-run get-or-create;
identically for `ingredients`; finally write the scalar attributes. -/
def recipeUpdate (db : Db) (user rid : Nat) (v : UpdatePayload) :
    Except Unit Db :=
  match (match v.tags with
         | none => Except.ok db
         | some specs =>
             getOrCreateTags { db with recipeTags := m2mClear db.recipeTags rid }
               user specs rid) with
  | .error e => .error e
  | .ok db1 =>
    match (match v.ingredients with
           | none => Except.ok db1
           | some specs =>
               getOrCreateIngredients
                 { db1 with recipeIngredients := m2mClear db1.recipeIngredients rid }
                 user specs rid) with
    | .error e => .error e
    | .ok db2 => .ok (saveRecipe db2 rid v)

/-- The validated body of a recipe create request.  `userField` stands for a
`user`/`owner` key the client may have sent: it is not a declared serializer
field, so validation discards it — the definition of `recipeCreate` never
reads it, and `perform_create` passes `user=self.request.user` instead. -/
structure CreatePayloadRaw where
  title : String
  timeMinutes : Nat
  price : Nat
  link : String
  description : String
  tags : Option (List String)
  ingredients : Option (List String)
  userField : Option Nat

/-- `RecipeViewSet.perform_create` + `RecipeSerializer.create`:
`tags = validated_data.pop("tags", [])` (likewise `ingredients`), the base
row is persisted first with `user` forced to the authenticated caller, then
the child collections are reconciled against the new row's id. -/
def recipeCreate (db : Db) (caller : Nat) (p : CreatePayloadRaw) :
    Except Unit (Db × Nat) :=
  let rid := db.nextRecipeId
  let r : Recipe :=
    { id := rid, user := caller, title := p.title,
      timeMinutes := p.timeMinutes, price := p.price, link := p.link,
      description := p.description, image := none }
  let db0 := { db with recipes := db.recipes ++ [r], nextRecipeId := rid + 1 }
  match getOrCreateTags db0 caller (p.tags.getD []) rid with
  | .error e => .error e
  | .ok db1 =>
    match getOrCreateIngredients db1 caller (p.ingredients.getD []) rid with
    | .error e => .error e
    | .ok db2 => .ok (db2, rid)

/-- ASCII whitespace, as stripped by Python `int(str)`. -/
def isSpaceChar (c : Char) : Bool :=
  c == ' ' || c == '\t' || c == '\n' || c == '\r'

/-- Strip whitespace from both ends of a character list. -/
def trimChars (l : List Char) : List Char :=
  ((l.dropWhile isSpaceChar).reverse.dropWhile isSpaceChar).reverse

/-- Accumulate the value of a decimal digit run; `none` on the first
non-digit character. -/
def digitsVal (acc : Nat) : List Char → Option Nat
  | [] => some acc
  | c :: cs =>
      if c.isDigit then digitsVal (acc * 10 + (c.toNat - 48)) cs else none

/-- Python `int(s)` on a query-string segment (as used by
`_params_to_ints`): surrounding whitespace is stripped, an optional sign is
followed by a non-empty run of decimal digits; anything else raises
`ValueError` (the error case).  Modelled over ASCII decimal input. -/
def pyIntChars (l : List Char) : Except Unit Int :=
  match trimChars l with
  | [] => .error ()
  | c :: cs =>
      if c == '-' then
        match cs, digitsVal 0 cs with
        | _ :: _, some n => .ok (-(n : Int))
        | _, _ => .error ()
      else if c == '+' then
        match cs, digitsVal 0 cs with
        | _ :: _, some n => .ok (n : Int)
        | _, _ => .error ()
      else
        match digitsVal 0 (c :: cs) with
        | some n => .ok (n : Int)
        | none => .error ()

/-- Python `str.split(",")`: the (non-empty) list of segments between
commas; the empty string yields the one-element list of the empty
segment. -/
def splitComma : List Char → List (List Char)
  | [] => [[]]
  | c :: cs =>
      let r := splitComma cs
      if c == ',' then [] :: r
      else
        match r with
        | [] => [[c]]
        | h :: t => (c :: h) :: t

/-- `RecipeViewSet._params_to_ints(qs)`:
`[int(str_id) for str_id in qs.split(",")]` — the first failing segment
raises `ValueError` and aborts the whole comprehension. -/
def paramsToInts (qs : String) : Except Unit (List Int) :=
  (splitComma qs.data).mapM pyIntChars

/-- `queryset.filter(tags__id__in=tag_ids)` (resp. `ingredients__id__in`):
an SQL join against the association table — each recipe row is repeated
once per matching association row, so a recipe matching several requested
ids occurs several times until `distinct()` runs. -/
def m2mJoinFilter (links : List (Nat × Nat)) (q : List Recipe)
    (ids : List Int) : List Recipe :=
  q.flatMap (fun r =>
    (links.filter (fun p => p.1 == r.id && ids.contains ((p.2 : Int)))).map
      (fun _ => r))

/-- One optional id-list parameter applied to the queryset, exactly as in
`get_queryset`: `if tags:` is Python truthiness, so both an absent parameter
and a present-but-empty string leave the queryset alone; otherwise the
parameter is parsed and the join filter applied, and a `ValueError` from
`int()` propagates. -/
def applyIdFilter (links : List (Nat × Nat)) (q : List Recipe) :
    Option String → Except Unit (List Recipe)
  | none => .ok q
  | some s =>
      if s = "" then .ok q
      else
        match paramsToInts s with
        | .ok ids => .ok (m2mJoinFilter links q ids)
        | .error e => .error e

/-- Descending-id comparison used by `order_by("-id")`. -/
def idDesc (a b : Recipe) : Prop := b.id ≤ a.id

instance : DecidableRel idDesc := fun a b => Nat.decLe b.id a.id

instance : IsTotal Recipe idDesc :=
  ⟨fun a b => (Nat.le_total b.id a.id).elim Or.inl Or.inr⟩

instance : IsTrans Recipe idDesc :=
  ⟨fun _ _ _ hab hbc => Nat.le_trans hbc hab⟩

/-- `order_by("-id").distinct()` on the final queryset: the distinct rows,
sorted by descending identifier. -/
def orderByIdDescDistinct (q : List Recipe) : List Recipe :=
  List.insertionSort idDesc q.dedup

/-- Outcome of the recipe list request, as seen at the HTTP boundary. -/
inductive ListResult where
  | ok (recipes : List Recipe)
  | validationError
  | serverError
deriving DecidableEq

/-- `RecipeViewSet.get_queryset` for the list action: start from
`Recipe.objects.all()`, apply the `tags` filter, then the `ingredients`
filter, then `filter(user=self.request.user).order_by("-id").distinct()`.
A `ValueError` escaping `_params_to_ints` is caught by no code of the view,
so the request ends in an unhandled server error, not a validation error. -/
def getQueryset (db : Db) (user : Nat) (tagsParam ingredientsParam : Option String) :
    ListResult :=
  match applyIdFilter db.recipeTags db.recipes tagsParam with
  | .error _ => .serverError
  | .ok q1 =>
    match applyIdFilter db.recipeIngredients q1 ingredientsParam with
    | .error _ => .serverError
    | .ok q2 =>
        .ok (orderByIdDescDistinct (q2.filter (fun r => r.user == user)))

/-- Whether a recipe row survives one optional id-list filter — the
predicate `applyIdFilter` implements row-wise (used to state the claims). -/
def paramMatches (links : List (Nat × Nat)) (r : Recipe) :
    Option String → Bool
  | none => true
  | some s =>
      if s = "" then true
      else
        match paramsToInts s with
        | .ok ids =>
            links.any (fun p => p.1 == r.id && ids.contains ((p.2 : Int)))
        | .error _ => false

/-- Outcome of the image-upload action. -/
inductive UploadResult where
  | ok
  | validationError
  | notFound
deriving DecidableEq

/-- `self.get_object()` for a detail action: the pk lookup inside the
owner-scoped queryset (`get_queryset` filters `user=self.request.user`);
a recipe of another owner is simply not found. -/
def findRecipe (db : Db) (user rid : Nat) : Option Recipe :=
  (db.recipes.filter (fun r => r.user == user)).find? (fun r => r.id == rid)

/-- An image-upload body.  Modelled from the spec: whether the payload
decodes as a supported raster image is decided by the `ImageField`
validation of the model layer (`core/models.py`, not among the sources);
the spec requires the endpoint to "validate it decodes as a supported
raster image format", so validity travels as a verdict with the payload. -/
structure ImagePayload where
  content : String
  decodesAsImage : Bool

/-- `RecipeViewSet.upload_image`: fetch the recipe through the owner-scoped
queryset, run the `RecipeImageSerializer`; on valid data `serializer.save()`
replaces the stored image, otherwise the 400 branch returns the errors and
nothing is written. -/
def uploadImage (db : Db) (user rid : Nat) (p : ImagePayload) :
    UploadResult × Db :=
  match findRecipe db user rid with
  | none => (.notFound, db)
  | some _ =>
      if p.decodesAsImage then
        (.ok, { db with recipes :=
          db.recipes.map (fun r =>
            if r.id == rid then { r with image := some p.content } else r) })
      else (.validationError, db)

/-- Two child rows are distinct as database rows: different primary keys
and different `(owner, name)` pairs. -/
def childDistinct (a b : ChildRow) : Prop :=
  a.id ≠ b.id ∧ ¬(a.user = b.user ∧ a.name = b.name)

instance : DecidableRel childDistinct := fun a b =>
  inferInstanceAs (Decidable (a.id ≠ b.id ∧ ¬(a.user = b.user ∧ a.name = b.name)))

/-- Well-formedness of a child table: distinct primary keys, no two rows
with the same `(owner, name)` pair (the invariant the reconciliation
algorithm maintains), all ids below the auto-increment counter. -/
def ChildWF (rows : List ChildRow) (nextId : Nat) : Prop :=
  rows.Pairwise childDistinct ∧ ∀ t ∈ rows, t.id < nextId

/-- Well-formedness of the whole store: both child tables well-formed,
recipe primary keys distinct and below the counter, association tables
duplicate-free and referring only to already-allocated recipe ids. -/
def Db.WF (db : Db) : Prop :=
  ChildWF db.tags db.nextTagId ∧
  ChildWF db.ingredients db.nextIngredientId ∧
  db.recipes.Pairwise (fun a b => a.id ≠ b.id) ∧
  (∀ r ∈ db.recipes, r.id < db.nextRecipeId) ∧
  db.recipeTags.Nodup ∧
  db.recipeIngredients.Nodup ∧
  (∀ q ∈ db.recipeTags, q.1 < db.nextRecipeId) ∧
  (∀ q ∈ db.recipeIngredients, q.1 < db.nextRecipeId)

deriving instance DecidableEq for Except

/-- Decidability of `List.Pairwise`, used to evaluate `Db.WF` on concrete
stores. -/
def decPairwise {α : Type} {R : α → α → Prop} [DecidableRel R] :
    (l : List α) → Decidable (l.Pairwise R)
  | [] => isTrue List.Pairwise.nil
  | a :: l =>
      haveI : Decidable (l.Pairwise R) := decPairwise l
      decidable_of_iff ((∀ b ∈ l, R a b) ∧ l.Pairwise R)
        List.pairwise_cons.symm

instance {α : Type} {R : α → α → Prop} [DecidableRel R] (l : List α) :
    Decidable (l.Pairwise R) := decPairwise l

instance (rows : List ChildRow) (nextId : Nat) : Decidable (ChildWF rows nextId) := by
  unfold ChildWF
  infer_instance

instance (db : Db) : Decidable db.WF := by
  unfold Db.WF
  infer_instance

/-! ## Concrete sample store for the witnesses -/

/-- A recipe of user 1. -/
def samplePongal : Recipe :=
  { id := 2, user := 1, title := "Pongal", timeMinutes := 60, price := 650,
    link := "", description := "", image := none }

/-- A recipe of user 2 with a stored image. -/
def sampleToast : Recipe :=
  { id := 1, user := 2, title := "Toast", timeMinutes := 5, price := 100,
    link := "", description := "", image := some "old.jpg" }

/-- A small two-user store. -/
def sampleDb : Db :=
  { recipes := [samplePongal, sampleToast],
    tags := [⟨1, 1, "Indian"⟩],
    ingredients := [⟨1, 1, "Salt"⟩],
    recipeTags := [(2, 1)],
    recipeIngredients := [(2, 1)],
    nextRecipeId := 3, nextTagId := 2, nextIngredientId := 2 }

/-- A partial update replacing the tag set by `[{"name": "Lunch"}]`. -/
def sampleUpdate : UpdatePayload :=
  { title := none, timeMinutes := none, price := none, link := none,
    description := none, tags := some ["Lunch"], ingredients := none }

/-- A partial update with only a scalar field and no collection keys. -/
def sampleUpdateNoKeys : UpdatePayload :=
  { title := some "Pongal plus", timeMinutes := none, price := none,
    link := none, description := none, tags := none, ingredients := none }

/-- A create payload with one existing and one new tag name, plus a bogus
`user` key in the body. -/
def sampleCreate : CreatePayloadRaw :=
  { title := "Pongal2", timeMinutes := 30, price := 500, link := "",
    description := "", tags := some ["Indian", "Breakfast"],
    ingredients := none, userField := some 99 }

/-- `sampleDb` after `recipeUpdate sampleDb 1 2 sampleUpdate`. -/
def sampleDbUpd : Db :=
  { recipes := [samplePongal, sampleToast],
    tags := [⟨1, 1, "Indian"⟩, ⟨2, 1, "Lunch"⟩],
    ingredients := [⟨1, 1, "Salt"⟩],
    recipeTags := [(2, 2)],
    recipeIngredients := [(2, 1)],
    nextRecipeId := 3, nextTagId := 3, nextIngredientId := 2 }

/-- `sampleDb` after `recipeUpdate sampleDb 1 2 sampleUpdateNoKeys`. -/
def sampleDbUpd2 : Db :=
  { recipes := [
      { id := 2, user := 1, title := "Pongal plus", timeMinutes := 60,
        price := 650, link := "", description := "", image := none },
      sampleToast],
    tags := [⟨1, 1, "Indian"⟩],
    ingredients := [⟨1, 1, "Salt"⟩],
    recipeTags := [(2, 1)],
    recipeIngredients := [(2, 1)],
    nextRecipeId := 3, nextTagId := 2, nextIngredientId := 2 }

/-- `sampleDb` after `recipeCreate sampleDb 1 sampleCreate`. -/
def sampleDbCreated : Db :=
  { recipes := [samplePongal, sampleToast,
      { id := 3, user := 1, title := "Pongal2", timeMinutes := 30,
        price := 500, link := "", description := "", image := none }],
    tags := [⟨1, 1, "Indian"⟩, ⟨2, 1, "Breakfast"⟩],
    ingredients := [⟨1, 1, "Salt"⟩],
    recipeTags := [(2, 1), (3, 1), (3, 2)],
    recipeIngredients := [(2, 1)],
    nextRecipeId := 4, nextTagId := 3, nextIngredientId := 2 }

/-- `sampleDb` after creating the same payload with no tag specs. -/
def sampleDbCreatedPlain : Db :=
  { recipes := [samplePongal, sampleToast,
      { id := 3, user := 1, title := "Pongal2", timeMinutes := 30,
        price := 500, link := "", description := "", image := none }],
    tags := [⟨1, 1, "Indian"⟩],
    ingredients := [⟨1, 1, "Salt"⟩],
    recipeTags := [(2, 1)],
    recipeIngredients := [(2, 1)],
    nextRecipeId := 4, nextTagId := 2, nextIngredientId := 2 }

/-- `sampleDb` after `getOrCreateTags sampleDb 1 ["A", "A"] 2`. -/
def sampleDbDup : Db :=
  { recipes := [samplePongal, sampleToast],
    tags := [⟨1, 1, "Indian"⟩, ⟨2, 1, "A"⟩],
    ingredients := [⟨1, 1, "Salt"⟩],
    recipeTags := [(2, 1), (2, 2)],
    recipeIngredients := [(2, 1)],
    nextRecipeId := 3, nextTagId := 3, nextIngredientId := 2 }

/-! ## Basic lemmas on the child-row operations -/

theorem childDistinct_symm : Symmetric childDistinct := by
  intro a b h
  exact ⟨h.1.symm, fun hc => h.2 ⟨hc.1.symm, hc.2.symm⟩⟩

theorem childWF_unique {rows : List ChildRow} {nid : Nat} (h : ChildWF rows nid)
    {a b : ChildRow} (ha : a ∈ rows) (hb : b ∈ rows)
    (hu : a.user = b.user) (hn : a.name = b.name) : a = b := by
  by_contra hne
  exact (h.1.forall childDistinct_symm ha hb hne).2 ⟨hu, hn⟩

theorem mem_childFilter {rows : List ChildRow} {u : Nat} {n : String} {t : ChildRow} :
    t ∈ rows.filter (fun t => t.user == u && t.name == n) ↔
      t ∈ rows ∧ t.user = u ∧ t.name = n := by
  simp [List.mem_filter]

theorem childFilter_cases {rows : List ChildRow} (h : rows.Pairwise childDistinct)
    (u : Nat) (n : String) :
    rows.filter (fun t => t.user == u && t.name == n) = [] ∨
      ∃ t, rows.filter (fun t => t.user == u && t.name == n) = [t] := by
  rcases hf : rows.filter (fun t => t.user == u && t.name == n) with _ | ⟨a, _ | ⟨b, l2⟩⟩
  · exact Or.inl hf
  · exact Or.inr ⟨a, hf⟩
  · exfalso
    have hpw := h.filter (fun t => t.user == u && t.name == n)
    rw [hf] at hpw
    have hab : childDistinct a b := (List.pairwise_cons.1 hpw).1 b (by simp)
    have hamem : a ∈ rows.filter (fun t => t.user == u && t.name == n) := by
      rw [hf]; simp
    have hbmem : b ∈ rows.filter (fun t => t.user == u && t.name == n) := by
      rw [hf]; simp
    rw [mem_childFilter] at hamem hbmem
    exact hab.2 ⟨hamem.2.1.trans hbmem.2.1.symm, hamem.2.2.trans hbmem.2.2.symm⟩

theorem childFilter_length_le {rows : List ChildRow}
    (h : rows.Pairwise childDistinct) (u : Nat) (n : String) :
    (rows.filter (fun t => t.user == u && t.name == n)).length ≤ 1 := by
  rcases childFilter_cases h u n with hf | ⟨t, hf⟩ <;> simp [hf]

theorem childGetOrCreate_found {rows : List ChildRow} {nid u : Nat} {n : String}
    {t : ChildRow} (h : rows.filter (fun t => t.user == u && t.name == n) = [t]) :
    childGetOrCreate rows nid u n = .ok (t, rows, nid) := by
  unfold childGetOrCreate
  rw [h]

theorem childGetOrCreate_new {rows : List ChildRow} {nid u : Nat} {n : String}
    (h : rows.filter (fun t => t.user == u && t.name == n) = []) :
    childGetOrCreate rows nid u n =
      .ok (⟨nid, u, n⟩, rows ++ [⟨nid, u, n⟩], nid + 1) := by
  unfold childGetOrCreate
  rw [h]

theorem childFilter_eq_nil {rows : List ChildRow} {u : Nat} {n : String}
    (h : rows.filter (fun t => t.user == u && t.name == n) = []) :
    ∀ t ∈ rows, ¬(t.user = u ∧ t.name = n) := by
  intro t ht hc
  have : t ∈ rows.filter (fun t => t.user == u && t.name == n) :=
    mem_childFilter.2 ⟨ht, hc.1, hc.2⟩
  rw [h] at this
  exact absurd this (List.not_mem_nil t)

theorem childWF_append {rows : List ChildRow} {nid u : Nat} {n : String}
    (h : ChildWF rows nid) (hfresh : ∀ t ∈ rows, ¬(t.user = u ∧ t.name = n)) :
    ChildWF (rows ++ [⟨nid, u, n⟩]) (nid + 1) := by
  constructor
  · rw [List.pairwise_append]
    refine ⟨h.1, List.pairwise_singleton _ _, ?_⟩
    intro a ha b hb
    have hbm : b = (⟨nid, u, n⟩ : ChildRow) := by simpa using hb
    subst hbm
    exact ⟨Nat.ne_of_lt (h.2 a ha), fun hc => hfresh a ha hc⟩
  · intro t ht
    rcases List.mem_append.1 ht with ht | ht
    · exact Nat.lt_trans (h.2 t ht) (Nat.lt_succ_self _)
    · have : t = (⟨nid, u, n⟩ : ChildRow) := by simpa using ht
      subst this
      exact Nat.lt_succ_self _

/-! ## Lemmas on the many-to-many association helpers -/

theorem mem_m2mAdd {links : List (Nat × Nat)} {r c : Nat} {q : Nat × Nat} :
    q ∈ m2mAdd links r c ↔ q ∈ links ∨ q = (r, c) := by
  unfold m2mAdd
  split
  · rename_i hmem
    constructor
    · exact Or.inl
    · rintro (hq | rfl)
      · exact hq
      · exact hmem
  · simp

theorem m2mAdd_self {links : List (Nat × Nat)} {r c : Nat} :
    (r, c) ∈ m2mAdd links r c :=
  mem_m2mAdd.2 (Or.inr rfl)

theorem m2mAdd_subset {links : List (Nat × Nat)} {r c : Nat} {q : Nat × Nat}
    (h : q ∈ links) : q ∈ m2mAdd links r c :=
  mem_m2mAdd.2 (Or.inl h)

theorem m2mAdd_nodup {links : List (Nat × Nat)} {r c : Nat}
    (h : links.Nodup) : (m2mAdd links r c).Nodup := by
  unfold m2mAdd
  split
  · exact h
  · rename_i hmem
    refine List.Nodup.append h (List.nodup_singleton _) ?_
    intro q hq hq1
    have : q = (r, c) := by simpa using hq1
    subst this
    exact hmem hq

theorem m2mAdd_frame {links : List (Nat × Nat)} {r c : Nat} {q : Nat × Nat}
    (hq : q.1 ≠ r) : q ∈ m2mAdd links r c ↔ q ∈ links := by
  rw [mem_m2mAdd]
  constructor
  · rintro (h | rfl)
    · exact h
    · exact absurd rfl hq
  · exact Or.inl

theorem mem_m2mClear {links : List (Nat × Nat)} {r : Nat} {q : Nat × Nat} :
    q ∈ m2mClear links r ↔ q ∈ links ∧ q.1 ≠ r := by
  simp [m2mClear]

theorem m2mClear_nodup {links : List (Nat × Nat)} {r : Nat}
    (h : links.Nodup) : (m2mClear links r).Nodup :=
  h.filter _

/-! ## Specification of the get-or-create loop

`getOrCreateLoop_spec` characterises one run of
`_get_or_create_tags`/`_get_or_create_ingredients` over a whole spec list:
the call succeeds on a well-formed table, preserves well-formedness, only
ever grows the child table with rows `(user, name ∈ specs)`, only ever adds
association rows `(rid, id-of-a-spec-row)`, links every requested name, and
touches no association row of another recipe. -/

theorem getOrCreateLoop_spec (u rid : Nat) :
    ∀ (specs : List String) (rows : List ChildRow) (nid : Nat)
      (links : List (Nat × Nat)), ChildWF rows nid →
      ∃ rows2 nid2 links2,
        getOrCreateLoop rows nid links u rid specs = .ok (rows2, nid2, links2) ∧
        ChildWF rows2 nid2 ∧
        (∀ s ∈ rows, s ∈ rows2) ∧
        (∀ s ∈ rows2, s ∈ rows ∨ (s.user = u ∧ s.name ∈ specs)) ∧
        (∀ q ∈ links, q ∈ links2) ∧
        (∀ q ∈ links2, q ∈ links ∨
          (q.1 = rid ∧ ∃ t ∈ rows2, t.id = q.2 ∧ t.user = u ∧ t.name ∈ specs)) ∧
        (∀ n ∈ specs, ∃ t ∈ rows2, t.user = u ∧ t.name = n ∧ (rid, t.id) ∈ links2) ∧
        (links.Nodup → links2.Nodup) ∧
        (∀ q : Nat × Nat, q.1 ≠ rid → (q ∈ links2 ↔ q ∈ links)) := by
  intro specs
  induction specs with
  | nil =>
      intro rows nid links h
      refine ⟨rows, nid, links, rfl, h, fun s hs => hs, fun s hs => Or.inl hs,
        fun q hq => hq, fun q hq => Or.inl hq, ?_, fun hnd => hnd,
        fun q _ => Iff.rfl⟩
      intro n hn
      exact absurd hn (List.not_mem_nil n)
  | cons n rest ih =>
      intro rows nid links h
      rcases childFilter_cases h.1 u n with hnil | ⟨t, ht⟩
      · -- no row `(u, n)` yet: a fresh one is created and linked
        have hfresh := childFilter_eq_nil hnil
        have hwf1 := childWF_append h hfresh
        obtain ⟨rows2, nid2, links2, heq, hwf2, hup, hdown, hlup, hldown, hcov,
          hnd, hfr⟩ := ih (rows ++ [⟨nid, u, n⟩]) (nid + 1) (m2mAdd links rid nid) hwf1
        have hnew : (⟨nid, u, n⟩ : ChildRow) ∈ rows2 :=
          hup _ (List.mem_append_right _ (by simp))
        refine ⟨rows2, nid2, links2, ?_, hwf2, ?_, ?_, ?_, ?_, ?_, ?_, ?_⟩
        · rw [getOrCreateLoop, childGetOrCreate_new hnil]
          exact heq
        · intro s hs
          exact hup s (List.mem_append_left _ hs)
        · intro s hs
          rcases hdown s hs with hs1 | hs1
          · rcases List.mem_append.1 hs1 with hs2 | hs2
            · exact Or.inl hs2
            · have : s = (⟨nid, u, n⟩ : ChildRow) := by simpa using hs2
              subst this
              exact Or.inr ⟨rfl, by simp⟩
          · exact Or.inr ⟨hs1.1, List.mem_cons_of_mem _ hs1.2⟩
        · intro q hq
          exact hlup q (m2mAdd_subset hq)
        · intro q hq
          rcases hldown q hq with hq1 | hq1
          · rcases mem_m2mAdd.1 hq1 with hq2 | hq2
            · exact Or.inl hq2
            · subst hq2
              exact Or.inr ⟨rfl, ⟨nid, u, n⟩, hnew, rfl, rfl, by simp⟩
          · obtain ⟨hq2, t2, ht2, hid2, hu2, hn2⟩ := hq1
            exact Or.inr ⟨hq2, t2, ht2, hid2, hu2, List.mem_cons_of_mem _ hn2⟩
        · intro m hm
          rcases List.mem_cons.1 hm with rfl | hm2
          · exact ⟨⟨nid, u, m⟩, hnew, rfl, rfl, hlup _ m2mAdd_self⟩
          · exact hcov m hm2
        · intro hnod
          exact hnd (m2mAdd_nodup hnod)
        · intro q hq
          exact (hfr q hq).trans (m2mAdd_frame hq)
      · -- a unique row `(u, n)` exists: it is reused and linked
        have htprops := mem_childFilter.1 (ht ▸ List.mem_singleton_self t)
        obtain ⟨rows2, nid2, links2, heq, hwf2, hup, hdown, hlup, hldown, hcov,
          hnd, hfr⟩ := ih rows nid (m2mAdd links rid t.id) h
        have htmem2 : t ∈ rows2 := hup t htprops.1
        refine ⟨rows2, nid2, links2, ?_, hwf2, hup, ?_, ?_, ?_, ?_, ?_, ?_⟩
        · rw [getOrCreateLoop, childGetOrCreate_found ht]
          exact heq
        · intro s hs
          rcases hdown s hs with hs1 | hs1
          · exact Or.inl hs1
          · exact Or.inr ⟨hs1.1, List.mem_cons_of_mem _ hs1.2⟩
        · intro q hq
          exact hlup q (m2mAdd_subset hq)
        · intro q hq
          rcases hldown q hq with hq1 | hq1
          · rcases mem_m2mAdd.1 hq1 with hq2 | hq2
            · exact Or.inl hq2
            · subst hq2
              exact Or.inr ⟨rfl, t, htmem2, rfl, htprops.2.1, by simp [htprops.2.2]⟩
          · obtain ⟨hq2, t2, ht2, hid2, hu2, hn2⟩ := hq1
            exact Or.inr ⟨hq2, t2, ht2, hid2, hu2, List.mem_cons_of_mem _ hn2⟩
        · intro m hm
          rcases List.mem_cons.1 hm with rfl | hm2
          · exact ⟨t, htmem2, htprops.2.1, htprops.2.2, hlup _ m2mAdd_self⟩
          · exact hcov m hm2
        · intro hnod
          exact hnd (m2mAdd_nodup hnod)
        · intro q hq
          exact (hfr q hq).trans (m2mAdd_frame hq)

/-! ## Wrapper and frame lemmas for the serializer operations -/

theorem getOrCreateTags_ok {db : Db} {u rid : Nat} {specs : List String}
    {rows2 : List ChildRow} {nid2 : Nat} {links2 : List (Nat × Nat)}
    (h : getOrCreateLoop db.tags db.nextTagId db.recipeTags u rid specs =
      .ok (rows2, nid2, links2)) :
    getOrCreateTags db u specs rid =
      .ok { db with tags := rows2, nextTagId := nid2, recipeTags := links2 } := by
  unfold getOrCreateTags
  rw [h]

theorem getOrCreateIngredients_ok {db : Db} {u rid : Nat} {specs : List String}
    {rows2 : List ChildRow} {nid2 : Nat} {links2 : List (Nat × Nat)}
    (h : getOrCreateLoop db.ingredients db.nextIngredientId db.recipeIngredients
      u rid specs = .ok (rows2, nid2, links2)) :
    getOrCreateIngredients db u specs rid =
      .ok { db with ingredients := rows2, nextIngredientId := nid2, recipeIngredients := links2 } := by
  unfold getOrCreateIngredients
  rw [h]

theorem getOrCreateTags_frame {db db2 : Db} {u rid : Nat} {specs : List String}
    (h : getOrCreateTags db u specs rid = .ok db2) :
    db2.ingredients = db.ingredients ∧ db2.nextIngredientId = db.nextIngredientId ∧
    db2.recipeIngredients = db.recipeIngredients ∧ db2.recipes = db.recipes ∧
    db2.nextRecipeId = db.nextRecipeId := by
  unfold getOrCreateTags at h
  rcases hm : getOrCreateLoop db.tags db.nextTagId db.recipeTags u rid specs with e | ⟨rows, nid, links⟩
  · rw [hm] at h
    exact absurd h (by simp)
  · rw [hm] at h
    have : ({ db with tags := rows, nextTagId := nid, recipeTags := links } : Db) = db2 := by
      simpa using h
    subst this
    exact ⟨rfl, rfl, rfl, rfl, rfl⟩

theorem getOrCreateIngredients_frame {db db2 : Db} {u rid : Nat} {specs : List String}
    (h : getOrCreateIngredients db u specs rid = .ok db2) :
    db2.tags = db.tags ∧ db2.nextTagId = db.nextTagId ∧
    db2.recipeTags = db.recipeTags ∧ db2.recipes = db.recipes ∧
    db2.nextRecipeId = db.nextRecipeId := by
  unfold getOrCreateIngredients at h
  rcases hm : getOrCreateLoop db.ingredients db.nextIngredientId
      db.recipeIngredients u rid specs with e | ⟨rows, nid, links⟩
  · rw [hm] at h
    exact absurd h (by simp)
  · rw [hm] at h
    have : ({ db with ingredients := rows, nextIngredientId := nid, recipeIngredients := links } : Db) = db2 := by
      simpa using h
    subst this
    exact ⟨rfl, rfl, rfl, rfl, rfl⟩

theorem saveRecipe_frame {db : Db} {rid : Nat} {v : UpdatePayload} :
    (saveRecipe db rid v).tags = db.tags ∧
    (saveRecipe db rid v).ingredients = db.ingredients ∧
    (saveRecipe db rid v).recipeTags = db.recipeTags ∧
    (saveRecipe db rid v).recipeIngredients = db.recipeIngredients := by
  exact ⟨rfl, rfl, rfl, rfl⟩

theorem saveRecipe_id_user {db : Db} {rid : Nat} {v : UpdatePayload} :
    (saveRecipe db rid v).recipes.map (fun r => (r.id, r.user)) =
      db.recipes.map (fun r => (r.id, r.user)) := by
  unfold saveRecipe
  rw [List.map_map]
  refine List.map_congr_left ?_
  intro r _
  by_cases hr : r.id == rid
  · simp [Function.comp, hr, setScalarAttrs]
  · simp [Function.comp, hr]

/-- Split a successful `RecipeSerializer.update` run into its three stages:
the tags branch, the ingredients branch, and the final scalar save. -/
theorem recipeUpdate_ok_elim {db : Db} {u rid : Nat} {v : UpdatePayload} {db' : Db}
    (h : recipeUpdate db u rid v = .ok db') :
    ∃ db1 db2,
      (match v.tags with
       | none => Except.ok db
       | some specs =>
           getOrCreateTags { db with recipeTags := m2mClear db.recipeTags rid }
             u specs rid) = .ok db1 ∧
      (match v.ingredients with
       | none => Except.ok db1
       | some specs =>
           getOrCreateIngredients
             { db1 with recipeIngredients := m2mClear db1.recipeIngredients rid }
             u specs rid) = .ok db2 ∧
      db' = saveRecipe db2 rid v := by
  unfold recipeUpdate at h
  split at h
  · exact absurd h (by simp)
  · rename_i db1 h1
    split at h
    · exact absurd h (by simp)
    · rename_i db2 h2
      have hs : saveRecipe db2 rid v = db' := by simpa using h
      exact ⟨db1, db2, h1, h2, hs.symm⟩

/-- Split a successful `create` run: the freshly persisted base row, then
the two reconciliation stages. -/
theorem recipeCreate_ok_elim {db : Db} {caller : Nat} {p : CreatePayloadRaw}
    {db' : Db} {rid : Nat} (h : recipeCreate db caller p = .ok (db', rid)) :
    rid = db.nextRecipeId ∧
    ∃ db1,
      getOrCreateTags
        { db with
          recipes := db.recipes ++
            [{ id := db.nextRecipeId, user := caller, title := p.title,
               timeMinutes := p.timeMinutes, price := p.price, link := p.link,
               description := p.description, image := none }],
          nextRecipeId := db.nextRecipeId + 1 }
        caller (p.tags.getD []) db.nextRecipeId = .ok db1 ∧
      getOrCreateIngredients db1 caller (p.ingredients.getD [])
        db.nextRecipeId = .ok db' := by
  simp only [recipeCreate] at h
  split at h
  · exact absurd h (by simp)
  · rename_i db1 h1
    split at h
    · exact absurd h (by simp)
    · rename_i db2 h2
      have hinj : db2 = db' ∧ db.nextRecipeId = rid := by
        simpa using h
      obtain ⟨rfl, hrid⟩ := hinj
      subst hrid
      exact ⟨rfl, db1, h1, h2⟩

/-! ## Lemmas on the listing pipeline -/

theorem mem_m2mJoinFilter {links : List (Nat × Nat)} {q : List Recipe}
    {ids : List Int} {r : Recipe} :
    r ∈ m2mJoinFilter links q ids ↔
      r ∈ q ∧ ∃ p ∈ links, p.1 = r.id ∧ (p.2 : Int) ∈ ids := by
  unfold m2mJoinFilter
  rw [List.mem_flatMap]
  constructor
  · rintro ⟨a, ha, hr⟩
    rw [List.mem_map] at hr
    obtain ⟨p, hp, rfl⟩ := hr
    rw [List.mem_filter] at hp
    refine ⟨ha, p, hp.1, ?_, ?_⟩
    · have := hp.2
      simp at this
      exact this.1
    · have := hp.2
      simp at this
      exact this.2
  · rintro ⟨hr, p, hp, hid, hin⟩
    refine ⟨r, hr, ?_⟩
    rw [List.mem_map]
    refine ⟨p, ?_, rfl⟩
    rw [List.mem_filter]
    exact ⟨hp, by simp [hid, hin]⟩

theorem applyIdFilter_ok_mem {links : List (Nat × Nat)} {q q' : List Recipe}
    {param : Option String} (h : applyIdFilter links q param = .ok q')
    (r : Recipe) : r ∈ q' ↔ r ∈ q ∧ paramMatches links r param = true := by
  match param with
  | none =>
      have hq : q = q' := by simpa [applyIdFilter] using h
      subst hq
      simp [paramMatches]
  | some s =>
      by_cases hs : s = ""
      · subst hs
        have hq : q = q' := by simpa [applyIdFilter] using h
        subst hq
        simp [paramMatches]
      · rcases hp : paramsToInts s with e | ids
        · rw [applyIdFilter, if_neg hs, hp] at h
          exact absurd h (by simp)
        · rw [applyIdFilter, if_neg hs, hp] at h
          have hq : m2mJoinFilter links q ids = q' := by simpa using h
          subst hq
          rw [mem_m2mJoinFilter]
          rw [paramMatches, if_neg hs, hp]
          constructor
          · rintro ⟨hr, p, hpl, hid, hin⟩
            refine ⟨hr, ?_⟩
            rw [List.any_eq_true]
            exact ⟨p, hpl, by simp [hid, hin]⟩
          · rintro ⟨hr, hany⟩
            rw [List.any_eq_true] at hany
            obtain ⟨p, hpl, hp2⟩ := hany
            simp at hp2
            exact ⟨hr, p, hpl, hp2.1, hp2.2⟩

theorem applyIdFilter_parse_fail {links : List (Nat × Nat)} {q : List Recipe}
    {s : String} (hs : s ≠ "") (hp : paramsToInts s = .error ()) :
    applyIdFilter links q (some s) = .error () := by
  rw [applyIdFilter, if_neg hs, hp]

theorem mem_orderByIdDescDistinct {q : List Recipe} {r : Recipe} :
    r ∈ orderByIdDescDistinct q ↔ r ∈ q := by
  unfold orderByIdDescDistinct
  rw [List.mem_insertionSort, List.mem_dedup]

theorem nodup_orderByIdDescDistinct (q : List Recipe) :
    (orderByIdDescDistinct q).Nodup :=
  ((List.perm_insertionSort idDesc q.dedup).nodup_iff).2 (List.nodup_dedup q)

theorem sorted_orderByIdDescDistinct (q : List Recipe) :
    (orderByIdDescDistinct q).Pairwise idDesc :=
  List.sorted_insertionSort idDesc q.dedup

/-- Split a successful list request into its two filter stages and the
final owner-scoping / ordering / de-duplication step. -/
theorem getQueryset_ok_elim {db : Db} {u : Nat} {tp ip : Option String}
    {rs : List Recipe} (h : getQueryset db u tp ip = .ok rs) :
    ∃ q1 q2,
      applyIdFilter db.recipeTags db.recipes tp = .ok q1 ∧
      applyIdFilter db.recipeIngredients q1 ip = .ok q2 ∧
      rs = orderByIdDescDistinct (q2.filter (fun r => r.user == u)) := by
  unfold getQueryset at h
  split at h
  · exact absurd h (by simp)
  · rename_i q1 h1
    split at h
    · exact absurd h (by simp)
    · rename_i q2 h2
      have hrs : orderByIdDescDistinct (q2.filter (fun r => r.user == u)) = rs := by
        simpa using h
      exact ⟨q1, q2, h1, h2, hrs.symm⟩

/-- Full membership characterisation of a successful list request. -/
theorem getQueryset_mem {db : Db} {u : Nat} {tp ip : Option String}
    {rs : List Recipe} (h : getQueryset db u tp ip = .ok rs) (r : Recipe) :
    r ∈ rs ↔ r ∈ db.recipes ∧ r.user = u ∧
      paramMatches db.recipeTags r tp = true ∧
      paramMatches db.recipeIngredients r ip = true := by
  obtain ⟨q1, q2, h1, h2, rfl⟩ := getQueryset_ok_elim h
  rw [mem_orderByIdDescDistinct, List.mem_filter,
    applyIdFilter_ok_mem h2 r, applyIdFilter_ok_mem h1 r]
  constructor
  · rintro ⟨⟨⟨hr, htag⟩, hing⟩, hu⟩
    exact ⟨hr, by simpa using hu, htag, hing⟩
  · rintro ⟨hr, hu, htag, hing⟩
    exact ⟨⟨⟨hr, htag⟩, hing⟩, by simpa using hu⟩

theorem paramMatches_none {links : List (Nat × Nat)} {r : Recipe} :
    paramMatches links r none = true := rfl

theorem paramMatches_some_ok {links : List (Nat × Nat)} {r : Recipe}
    {s : String} {ids : List Int} (hs : s ≠ "")
    (hp : paramsToInts s = .ok ids) :
    (paramMatches links r (some s) = true ↔
      ∃ p ∈ links, p.1 = r.id ∧ (p.2 : Int) ∈ ids) := by
  rw [paramMatches, if_neg hs, hp, List.any_eq_true]
  constructor
  · rintro ⟨p, hpl, hp2⟩
    simp at hp2
    exact ⟨p, hpl, hp2.1, hp2.2⟩
  · rintro ⟨p, hpl, hid, hin⟩
    exact ⟨p, hpl, by simp [hid, hin]⟩

/-! ## The claims -/

/-- C1: for every user and every combination of `tags`/`ingredients` filter
parameters, a successful recipe list request returns only recipes owned by
that user, and it contains every recipe of that user that passes the two
filter parameters. -/
theorem recipeList_owner_scoped (db : Db) (u : Nat) (tp ip : Option String)
    (rs : List Recipe) (h : getQueryset db u tp ip = .ok rs) :
    (∀ r ∈ rs, r.user = u) ∧
    (∀ r ∈ db.recipes, r.user = u →
      paramMatches db.recipeTags r tp = true →
      paramMatches db.recipeIngredients r ip = true → r ∈ rs) := by
  constructor
  · intro r hr
    exact ((getQueryset_mem h r).1 hr).2.1
  · intro r hr hu ht hi
    exact (getQueryset_mem h r).2 ⟨hr, hu, ht, hi⟩

/-- C7: with a `tags` id-list (and optionally an `ingredients` id-list), a
successful list request returns exactly the caller's recipes linked to at
least one requested tag id — and, when both parameters are supplied, also to
at least one requested ingredient id — without duplicates, ordered by
descending identifier. -/
theorem list_filter_characterisation (db : Db) (u : Nat) (ts is2 : String)
    (tagIds ingIds : List Int) (rs rsT : List Recipe)
    (hts : ts ≠ "") (his : is2 ≠ "")
    (hpt : paramsToInts ts = .ok tagIds) (hpi : paramsToInts is2 = .ok ingIds) :
    (getQueryset db u (some ts) (some is2) = .ok rs →
      (∀ r, r ∈ rs ↔ r ∈ db.recipes ∧ r.user = u ∧
          (∃ p ∈ db.recipeTags, p.1 = r.id ∧ (p.2 : Int) ∈ tagIds) ∧
          (∃ p ∈ db.recipeIngredients, p.1 = r.id ∧ (p.2 : Int) ∈ ingIds)) ∧
        rs.Nodup ∧ rs.Pairwise idDesc) ∧
    (getQueryset db u (some ts) none = .ok rsT →
      (∀ r, r ∈ rsT ↔ r ∈ db.recipes ∧ r.user = u ∧
          (∃ p ∈ db.recipeTags, p.1 = r.id ∧ (p.2 : Int) ∈ tagIds)) ∧
        rsT.Nodup ∧ rsT.Pairwise idDesc) := by
  constructor
  · intro h
    obtain ⟨q1, q2, h1, h2, hrs⟩ := getQueryset_ok_elim h
    refine ⟨?_, ?_, ?_⟩
    · intro r
      rw [getQueryset_mem h r, paramMatches_some_ok hts hpt,
        paramMatches_some_ok his hpi]
    · rw [hrs]
      exact nodup_orderByIdDescDistinct _
    · rw [hrs]
      exact sorted_orderByIdDescDistinct _
  · intro h
    obtain ⟨q1, q2, h1, h2, hrs⟩ := getQueryset_ok_elim h
    refine ⟨?_, ?_, ?_⟩
    · intro r
      rw [getQueryset_mem h r, paramMatches_some_ok hts hpt]
      simp [paramMatches_none]
    · rw [hrs]
      exact nodup_orderByIdDescDistinct _
    · rw [hrs]
      exact sorted_orderByIdDescDistinct _

theorem getQueryset_stage1_err {db : Db} {u : Nat} {tp : Option String}
    (ip : Option String)
    (h1 : applyIdFilter db.recipeTags db.recipes tp = .error ()) :
    getQueryset db u tp ip = .serverError := by
  unfold getQueryset
  rw [h1]

theorem getQueryset_stage2 {db : Db} {u : Nat} {tp : Option String}
    {q1 : List Recipe}
    (h1 : applyIdFilter db.recipeTags db.recipes tp = .ok q1)
    (ip : Option String) :
    getQueryset db u tp ip =
      match applyIdFilter db.recipeIngredients q1 ip with
      | .error _ => ListResult.serverError
      | .ok q2 =>
          .ok (orderByIdDescDistinct (q2.filter (fun r => r.user == u))) := by
  unfold getQueryset
  rw [h1]

/-- C8 (amended): a present, non-empty `tags` or `ingredients` parameter is
parsed as a comma-separated list of integers, and a parse failure on any
segment fails the whole request — regardless of what the other parameter
holds — but with an unhandled error (server error), not a validation
failure; a present-but-empty parameter of either kind is ignored rather
than parsed. -/
theorem paramsFilter_parse_failure (db : Db) (u : Nat) (s is2 : String)
    (tp ip : Option String) :
    (s ≠ "" → paramsToInts s = .error () →
      getQueryset db u (some s) ip = .serverError) ∧
    (is2 ≠ "" → paramsToInts is2 = .error () →
      getQueryset db u tp (some is2) = .serverError) ∧
    (getQueryset db u (some "") ip = getQueryset db u none ip) ∧
    (getQueryset db u tp (some "") = getQueryset db u tp none) := by
  refine ⟨?_, ?_, rfl, ?_⟩
  · intro hs hp
    exact getQueryset_stage1_err ip (applyIdFilter_parse_fail hs hp)
  · intro his hip
    rcases h1 : applyIdFilter db.recipeTags db.recipes tp with e | q1
    · cases e
      exact getQueryset_stage1_err (some is2) h1
    · rw [getQueryset_stage2 h1 (some is2), applyIdFilter_parse_fail his hip]
  · rcases h1 : applyIdFilter db.recipeTags db.recipes tp with e | q1
    · cases e
      rw [getQueryset_stage1_err (some "") h1, getQueryset_stage1_err none h1]
    · rw [getQueryset_stage2 h1 (some ""), getQueryset_stage2 h1 none]
      rfl

/-- C9: an upload to the image endpoint whose payload does not validate as
an image fails with a validation failure, and the store — in particular the
recipe's previously stored image — is unchanged. -/
theorem upload_invalid_image_rejected (db : Db) (u rid : Nat)
    (p : ImagePayload) (r : Recipe) (hr : findRecipe db u rid = some r)
    (hp : p.decodesAsImage = false) :
    uploadImage db u rid p = (.validationError, db) := by
  unfold uploadImage
  rw [hr, hp]
  simp

/-- C3: a partial update whose payload omits the `tags` (resp.
`ingredients`) key leaves the recipe-tag (resp. recipe-ingredient)
association table and the child table untouched. -/
theorem update_absent_key_frame (db : Db) (u rid : Nat) (v : UpdatePayload)
    (db' : Db) (h : recipeUpdate db u rid v = .ok db') :
    (v.tags = none → db'.recipeTags = db.recipeTags ∧ db'.tags = db.tags) ∧
    (v.ingredients = none →
      db'.recipeIngredients = db.recipeIngredients ∧
      db'.ingredients = db.ingredients) := by
  obtain ⟨db1, db2, h1, h2, rfl⟩ := recipeUpdate_ok_elim h
  constructor
  · intro ht
    rw [ht] at h1
    have hdb1 : db = db1 := by simpa using h1
    subst hdb1
    rcases hvi : v.ingredients with _ | specs
    · rw [hvi] at h2
      have hdb2 : db = db2 := by simpa using h2
      subst hdb2
      exact ⟨rfl, rfl⟩
    · rw [hvi] at h2
      have hfr := getOrCreateIngredients_frame h2
      exact ⟨hfr.2.2.1, hfr.1⟩
  · intro hi
    rw [hi] at h2
    have hdb2 : db1 = db2 := by simpa using h2
    subst hdb2
    rcases hvt : v.tags with _ | specs
    · rw [hvt] at h1
      have hdb1 : db = db1 := by simpa using h1
      subst hdb1
      exact ⟨rfl, rfl⟩
    · rw [hvt] at h1
      have hfr := getOrCreateTags_frame h1
      exact ⟨hfr.2.2.1, hfr.1⟩

/-- Clear-then-relink on the tag side: after `instance.tags.clear()` and
`_get_or_create_tags(specs, instance)`, recipe `rid` is linked exactly to
the rows resolved from `specs`. -/
theorem getOrCreateTags_clear_spec {db : Db} (u rid : Nat) (specs : List String)
    (hwf : ChildWF db.tags db.nextTagId) :
    ∃ db1, getOrCreateTags { db with recipeTags := m2mClear db.recipeTags rid }
        u specs rid = .ok db1 ∧
      ChildWF db1.tags db1.nextTagId ∧
      (∀ cid, ((rid, cid) ∈ db1.recipeTags ↔
        ∃ t ∈ db1.tags, t.id = cid ∧ t.user = u ∧ t.name ∈ specs)) ∧
      db1.ingredients = db.ingredients ∧
      db1.nextIngredientId = db.nextIngredientId ∧
      db1.recipeIngredients = db.recipeIngredients ∧
      db1.recipes = db.recipes := by
  obtain ⟨rows2, nid2, links2, heq, hwf2, hup, hdown, hlup, hldown, hcov, hnd,
    hfr⟩ := getOrCreateLoop_spec u rid specs db.tags db.nextTagId
      (m2mClear db.recipeTags rid) hwf
  refine ⟨_, @getOrCreateTags_ok { db with recipeTags := m2mClear db.recipeTags rid } u rid specs rows2 nid2 links2 heq,
    hwf2, ?_, rfl, rfl, rfl, rfl⟩
  intro cid
  constructor
  · intro hq
    rcases hldown (rid, cid) hq with hq1 | hq1
    · exact absurd rfl (mem_m2mClear.1 hq1).2
    · obtain ⟨_, t, ht, hid, hu, hn⟩ := hq1
      exact ⟨t, ht, hid, hu, hn⟩
  · rintro ⟨t, ht, rfl, hu, hn⟩
    obtain ⟨t2, ht2, hu2, hn2, hl2⟩ := hcov t.name hn
    have : t = t2 := childWF_unique hwf2 ht ht2 (hu.trans hu2.symm) hn2.symm
    rw [this]
    exact hl2

/-- Clear-then-relink on the ingredient side. -/
theorem getOrCreateIngredients_clear_spec {db : Db} (u rid : Nat)
    (specs : List String)
    (hwf : ChildWF db.ingredients db.nextIngredientId) :
    ∃ db1, getOrCreateIngredients
        { db with recipeIngredients := m2mClear db.recipeIngredients rid }
        u specs rid = .ok db1 ∧
      ChildWF db1.ingredients db1.nextIngredientId ∧
      (∀ cid, ((rid, cid) ∈ db1.recipeIngredients ↔
        ∃ t ∈ db1.ingredients, t.id = cid ∧ t.user = u ∧ t.name ∈ specs)) ∧
      db1.tags = db.tags ∧
      db1.nextTagId = db.nextTagId ∧
      db1.recipeTags = db.recipeTags ∧
      db1.recipes = db.recipes := by
  obtain ⟨rows2, nid2, links2, heq, hwf2, hup, hdown, hlup, hldown, hcov, hnd,
    hfr⟩ := getOrCreateLoop_spec u rid specs db.ingredients db.nextIngredientId
      (m2mClear db.recipeIngredients rid) hwf
  refine ⟨_, @getOrCreateIngredients_ok { db with recipeIngredients := m2mClear db.recipeIngredients rid } u rid specs rows2 nid2 links2 heq,
    hwf2, ?_, rfl, rfl, rfl, rfl⟩
  intro cid
  constructor
  · intro hq
    rcases hldown (rid, cid) hq with hq1 | hq1
    · exact absurd rfl (mem_m2mClear.1 hq1).2
    · obtain ⟨_, t, ht, hid, hu, hn⟩ := hq1
      exact ⟨t, ht, hid, hu, hn⟩
  · rintro ⟨t, ht, rfl, hu, hn⟩
    obtain ⟨t2, ht2, hu2, hn2, hl2⟩ := hcov t.name hn
    have : t = t2 := childWF_unique hwf2 ht ht2 (hu.trans hu2.symm) hn2.symm
    rw [this]
    exact hl2

/-- C2: when an update payload contains the `tags` (resp. `ingredients`)
key, the recipe's association set of that kind afterwards is exactly the
set of child rows resolved from the spec list — existing links are cleared
first, so a non-empty list replaces the set and an empty list leaves it
empty. -/
theorem update_replaces_child_sets (db : Db) (u rid : Nat) (v : UpdatePayload)
    (db' : Db) (specs ispecs : List String) (cid : Nat) (hwf : Db.WF db)
    (h : recipeUpdate db u rid v = .ok db') :
    (v.tags = some specs →
      ((rid, cid) ∈ db'.recipeTags ↔
        ∃ t ∈ db'.tags, t.id = cid ∧ t.user = u ∧ t.name ∈ specs)) ∧
    (v.ingredients = some ispecs →
      ((rid, cid) ∈ db'.recipeIngredients ↔
        ∃ t ∈ db'.ingredients, t.id = cid ∧ t.user = u ∧ t.name ∈ ispecs)) := by
  obtain ⟨db1, db2, h1, h2, rfl⟩ := recipeUpdate_ok_elim h
  constructor
  · intro ht
    rw [ht] at h1
    dsimp only at h1
    obtain ⟨db1', heq, hwf1, hchar, hfr⟩ :=
      @getOrCreateTags_clear_spec db u rid specs hwf.1
    rw [heq] at h1
    have hdb1 : db1' = db1 := by simpa using h1
    subst hdb1
    have htags : (saveRecipe db2 rid v).recipeTags = db1'.recipeTags ∧
        (saveRecipe db2 rid v).tags = db1'.tags := by
      rcases hvi : v.ingredients with _ | ispecs2
      · rw [hvi] at h2
        have hdb2 : db1' = db2 := by simpa using h2
        subst hdb2
        exact ⟨rfl, rfl⟩
      · rw [hvi] at h2
        have hfr2 := getOrCreateIngredients_frame h2
        exact ⟨hfr2.2.2.1, hfr2.1⟩
    rw [htags.1, htags.2]
    exact hchar cid
  · intro hi
    rw [hi] at h2
    dsimp only at h2
    have hwfI : ChildWF db1.ingredients db1.nextIngredientId := by
      rcases hvt : v.tags with _ | specs2
      · rw [hvt] at h1
        have hdb1 : db = db1 := by simpa using h1
        subst hdb1
        exact hwf.2.1
      · rw [hvt] at h1
        have hfr1 := getOrCreateTags_frame h1
        rw [hfr1.1, hfr1.2.1]
        exact hwf.2.1
    obtain ⟨db2', heq, hwf2, hchar, hfr⟩ :=
      @getOrCreateIngredients_clear_spec db1 u rid ispecs hwfI
    rw [heq] at h2
    have hdb2 : db2' = db2 := by simpa using h2
    subst hdb2
    exact hchar cid

theorem count_eq_one_of_nodup_mem {α : Type} [BEq α] [LawfulBEq α]
    {l : List α} {a : α} (h : l.Nodup) (ha : a ∈ l) : l.count a = 1 := by
  induction l with
  | nil => exact absurd ha (List.not_mem_nil a)
  | cons b l ih =>
      rw [List.count_cons]
      rcases List.mem_cons.1 ha with rfl | hmem
      · have hnb : a ∉ l := (List.nodup_cons.1 h).1
        rw [List.count_eq_zero.2 hnb]
        simp
      · have hne : a ≠ b := by
          rintro rfl
          exact (List.nodup_cons.1 h).1 hmem
        rw [ih (List.nodup_cons.1 h).2 hmem]
        simp [Ne.symm hne]

/-- C4: processing one `{name}` spec for the authenticated user reuses an
existing child row of that owner and name — linking it without creating any
row — and otherwise creates exactly one new row with that owner and name
and links it (tags and ingredients behave identically). -/
theorem getOrCreate_reuses_or_creates (db : Db) (u rid : Nat) (n : String)
    (t0 : ChildRow) (hwf : Db.WF db) :
    (t0 ∈ db.tags → t0.user = u → t0.name = n →
      getOrCreateTags db u [n] rid =
        .ok { db with recipeTags := m2mAdd db.recipeTags rid t0.id }) ∧
    ((¬∃ t ∈ db.tags, t.user = u ∧ t.name = n) →
      getOrCreateTags db u [n] rid =
        .ok { db with tags := db.tags ++ [⟨db.nextTagId, u, n⟩], nextTagId := db.nextTagId + 1, recipeTags := m2mAdd db.recipeTags rid db.nextTagId }) ∧
    (t0 ∈ db.ingredients → t0.user = u → t0.name = n →
      getOrCreateIngredients db u [n] rid =
        .ok { db with recipeIngredients := m2mAdd db.recipeIngredients rid t0.id }) ∧
    ((¬∃ t ∈ db.ingredients, t.user = u ∧ t.name = n) →
      getOrCreateIngredients db u [n] rid =
        .ok { db with ingredients := db.ingredients ++ [⟨db.nextIngredientId, u, n⟩], nextIngredientId := db.nextIngredientId + 1, recipeIngredients := m2mAdd db.recipeIngredients rid db.nextIngredientId }) := by
  refine ⟨?_, ?_, ?_, ?_⟩
  · intro hmem hu hn
    rcases childFilter_cases hwf.1.1 u n with hnil | ⟨t, ht⟩
    · exact absurd ⟨hu, hn⟩ (childFilter_eq_nil hnil t0 hmem)
    · have htp := mem_childFilter.1 (ht ▸ List.mem_singleton_self t)
      have hte : t = t0 :=
        childWF_unique hwf.1 htp.1 hmem (htp.2.1.trans hu.symm)
          (htp.2.2.trans hn.symm)
      subst hte
      simp [getOrCreateTags, getOrCreateLoop, childGetOrCreate_found ht]
  · intro hno
    rcases childFilter_cases hwf.1.1 u n with hnil | ⟨t, ht⟩
    · simp [getOrCreateTags, getOrCreateLoop, childGetOrCreate_new hnil]
    · have htp := mem_childFilter.1 (ht ▸ List.mem_singleton_self t)
      exact absurd ⟨t, htp.1, htp.2.1, htp.2.2⟩ hno
  · intro hmem hu hn
    rcases childFilter_cases hwf.2.1.1 u n with hnil | ⟨t, ht⟩
    · exact absurd ⟨hu, hn⟩ (childFilter_eq_nil hnil t0 hmem)
    · have htp := mem_childFilter.1 (ht ▸ List.mem_singleton_self t)
      have hte : t = t0 :=
        childWF_unique hwf.2.1 htp.1 hmem (htp.2.1.trans hu.symm)
          (htp.2.2.trans hn.symm)
      subst hte
      simp [getOrCreateIngredients, getOrCreateLoop, childGetOrCreate_found ht]
  · intro hno
    rcases childFilter_cases hwf.2.1.1 u n with hnil | ⟨t, ht⟩
    · simp [getOrCreateIngredients, getOrCreateLoop, childGetOrCreate_new hnil]
    · have htp := mem_childFilter.1 (ht ▸ List.mem_singleton_self t)
      exact absurd ⟨t, htp.1, htp.2.1, htp.2.2⟩ hno

/-- C5: a spec list naming the same child more than once in one request
still results in exactly one child row of that owner and name, linked to
the recipe by exactly one association row (tags and ingredients alike). -/
theorem duplicate_specs_idempotent (db : Db) (u rid : Nat)
    (specs : List String) (n : String) (db' dbI' : Db) (hwf : Db.WF db)
    (hdup : 2 ≤ specs.count n) :
    (getOrCreateTags db u specs rid = .ok db' →
      (db'.tags.countP (fun t => t.user == u && t.name == n)) = 1 ∧
      ∃ t ∈ db'.tags, t.user = u ∧ t.name = n ∧
        db'.recipeTags.count (rid, t.id) = 1) ∧
    (getOrCreateIngredients db u specs rid = .ok dbI' →
      (dbI'.ingredients.countP (fun t => t.user == u && t.name == n)) = 1 ∧
      ∃ t ∈ dbI'.ingredients, t.user = u ∧ t.name = n ∧
        dbI'.recipeIngredients.count (rid, t.id) = 1) := by
  have hmem : n ∈ specs := by
    rcases List.count_pos_iff.1 (Nat.lt_of_lt_of_le Nat.zero_lt_two hdup) with h
    exact h
  constructor
  · intro h
    obtain ⟨rows2, nid2, links2, heq, hwf2, hup, hdown, hlup, hldown, hcov,
      hnd, hfr⟩ := getOrCreateLoop_spec u rid specs db.tags db.nextTagId
        db.recipeTags hwf.1
    rw [getOrCreateTags_ok heq] at h
    have hdb : ({ db with tags := rows2, nextTagId := nid2, recipeTags := links2 } : Db) = db' := by
      simpa using h
    subst hdb
    obtain ⟨t, htmem, htu, htn, htl⟩ := hcov n hmem
    have hnodup : links2.Nodup := hnd hwf.2.2.2.2.1
    constructor
    · have hle := childFilter_length_le hwf2.1 u n
      have hge : t ∈ rows2.filter (fun t => t.user == u && t.name == n) :=
        mem_childFilter.2 ⟨htmem, htu, htn⟩
      have hpos : 0 < (rows2.filter (fun t => t.user == u && t.name == n)).length :=
        List.length_pos.2 (List.ne_nil_of_mem hge)
      have hlen : (rows2.filter (fun t => t.user == u && t.name == n)).length = 1 := by
        omega
      rw [List.countP_eq_length_filter]
      exact hlen
    · exact ⟨t, htmem, htu, htn, count_eq_one_of_nodup_mem hnodup htl⟩
  · intro h
    obtain ⟨rows2, nid2, links2, heq, hwf2, hup, hdown, hlup, hldown, hcov,
      hnd, hfr⟩ := getOrCreateLoop_spec u rid specs db.ingredients
        db.nextIngredientId db.recipeIngredients hwf.2.1
    rw [getOrCreateIngredients_ok heq] at h
    have hdb : ({ db with ingredients := rows2, nextIngredientId := nid2, recipeIngredients := links2 } : Db) = dbI' := by
      simpa using h
    subst hdb
    obtain ⟨t, htmem, htu, htn, htl⟩ := hcov n hmem
    have hnodup : links2.Nodup := hnd hwf.2.2.2.2.2.1
    constructor
    · have hle := childFilter_length_le hwf2.1 u n
      have hge : t ∈ rows2.filter (fun t => t.user == u && t.name == n) :=
        mem_childFilter.2 ⟨htmem, htu, htn⟩
      have hpos : 0 < (rows2.filter (fun t => t.user == u && t.name == n)).length :=
        List.length_pos.2 (List.ne_nil_of_mem hge)
      have hlen : (rows2.filter (fun t => t.user == u && t.name == n)).length = 1 := by
        omega
      rw [List.countP_eq_length_filter]
      exact hlen
    · exact ⟨t, htmem, htu, htn, count_eq_one_of_nodup_mem hnodup htl⟩

/-- C6: the owner of a recipe always equals the authenticated caller that
created it — a `user`/`owner` key in the create payload is ignored, the
created row carries the caller as owner, and no update through
`RecipeSerializer.update` ever changes any recipe's owner. -/
theorem owner_forced_and_immutable (db : Db) (caller : Nat)
    (p : CreatePayloadRaw) (db' : Db) (rid : Nat) (w : Option Nat)
    (dbU : Db) (u rid2 : Nat) (v : UpdatePayload) (dbU' : Db) :
    (recipeCreate db caller { p with userField := w } =
      recipeCreate db caller p) ∧
    (recipeCreate db caller p = .ok (db', rid) →
      ∃ r, db'.recipes = db.recipes ++ [r] ∧ r.user = caller ∧ r.id = rid) ∧
    (recipeUpdate dbU u rid2 v = .ok dbU' →
      dbU'.recipes.map (fun r => (r.id, r.user)) =
        dbU.recipes.map (fun r => (r.id, r.user))) := by
  refine ⟨rfl, ?_, ?_⟩
  · intro h
    obtain ⟨hrid, db1, h1, h2⟩ := recipeCreate_ok_elim h
    have hfr1 := getOrCreateTags_frame h1
    have hfr2 := getOrCreateIngredients_frame h2
    refine ⟨{ id := db.nextRecipeId, user := caller, title := p.title, timeMinutes := p.timeMinutes, price := p.price, link := p.link, description := p.description, image := none }, ?_, rfl, hrid.symm⟩
    rw [hfr2.2.2.2.1, hfr1.2.2.2.1]
  · intro h
    obtain ⟨db1, db2, h1, h2, rfl⟩ := recipeUpdate_ok_elim h
    have hr1 : db1.recipes = dbU.recipes := by
      rcases hvt : v.tags with _ | specs
      · rw [hvt] at h1
        have : dbU = db1 := by simpa using h1
        rw [← this]
      · rw [hvt] at h1
        exact (getOrCreateTags_frame h1).2.2.2.1
    have hr2 : db2.recipes = db1.recipes := by
      rcases hvi : v.ingredients with _ | specs
      · rw [hvi] at h2
        have : db1 = db2 := by simpa using h2
        rw [← this]
      · rw [hvi] at h2
        exact (getOrCreateIngredients_frame h2).2.2.2.1
    rw [saveRecipe_id_user, hr2, hr1]

theorem getOrCreateTags_nil {db db1 : Db} {u rid : Nat}
    (h : getOrCreateTags db u [] rid = .ok db1) :
    db1.tags = db.tags ∧ db1.nextTagId = db.nextTagId ∧
    db1.recipeTags = db.recipeTags := by
  have h' : ({ db with tags := db.tags, nextTagId := db.nextTagId, recipeTags := db.recipeTags } : Db) = db1 := by
    simpa [getOrCreateTags, getOrCreateLoop] using h
  rw [← h']
  exact ⟨rfl, rfl, rfl⟩

theorem getOrCreateIngredients_nil {db db1 : Db} {u rid : Nat}
    (h : getOrCreateIngredients db u [] rid = .ok db1) :
    db1.ingredients = db.ingredients ∧ db1.nextIngredientId = db.nextIngredientId ∧
    db1.recipeIngredients = db.recipeIngredients := by
  have h' : ({ db with ingredients := db.ingredients, nextIngredientId := db.nextIngredientId, recipeIngredients := db.recipeIngredients } : Db) = db1 := by
    simpa [getOrCreateIngredients, getOrCreateLoop] using h
  rw [← h']
  exact ⟨rfl, rfl, rfl⟩

/-- C10: on create, an absent `tags` (resp. `ingredients`) key behaves
exactly like a present-but-empty list, and in both cases the newly created
recipe ends up with no association of that kind. -/
theorem create_absent_equals_empty (db : Db) (caller : Nat)
    (p : CreatePayloadRaw) (db' dbI' : Db) (rid cid : Nat) :
    (recipeCreate db caller { p with tags := none } =
      recipeCreate db caller { p with tags := some [] }) ∧
    (recipeCreate db caller { p with ingredients := none } =
      recipeCreate db caller { p with ingredients := some [] }) ∧
    (Db.WF db → recipeCreate db caller { p with tags := none } = .ok (db', rid) →
      (rid, cid) ∉ db'.recipeTags) ∧
    (Db.WF db → recipeCreate db caller { p with ingredients := none } = .ok (dbI', rid) →
      (rid, cid) ∉ dbI'.recipeIngredients) := by
  refine ⟨rfl, rfl, ?_, ?_⟩
  · intro hwf h
    obtain ⟨hrid, db1, h1, h2⟩ := recipeCreate_ok_elim h
    dsimp only [Option.getD] at h1
    have hn1 := getOrCreateTags_nil h1
    have hfr2 := getOrCreateIngredients_frame h2
    intro hmem
    rw [hfr2.2.2.1, hn1.2.2] at hmem
    have hlt := hwf.2.2.2.2.2.2.1 _ hmem
    subst hrid
    exact absurd hlt (Nat.lt_irrefl _)
  · intro hwf h
    obtain ⟨hrid, db1, h1, h2⟩ := recipeCreate_ok_elim h
    dsimp only [Option.getD] at h2
    have hfr1 := getOrCreateTags_frame h1
    have hn2 := getOrCreateIngredients_nil h2
    intro hmem
    rw [hn2.2.2, hfr1.2.2.1] at hmem
    have hlt := hwf.2.2.2.2.2.2.2 _ hmem
    subst hrid
    exact absurd hlt (Nat.lt_irrefl _)

/-! ## Counterexample for the parse-failure claim -/

/-- C8 (counterexample): an unparseable `tags` parameter ends the request
in a server error, not a validation failure — and a present-but-empty
`tags` parameter is never parsed at all: the request succeeds although
`int("")` would fail. -/
theorem paramsFilter_counterexample :
    getQueryset sampleDb 1 (some "abc") none = ListResult.serverError ∧
    getQueryset sampleDb 1 (some "abc") none ≠ ListResult.validationError ∧
    getQueryset sampleDb 1 (some "") none = ListResult.ok [samplePongal] := by
  decide

/-! ## Witnesses: the claim theorems applied at concrete inputs -/

theorem recipeList_owner_scoped_witness :
    getQueryset sampleDb 1 (some "1") none = .ok [samplePongal] ∧
    ((∀ r ∈ [samplePongal], r.user = 1) ∧
     (∀ r ∈ sampleDb.recipes, r.user = 1 →
        paramMatches sampleDb.recipeTags r (some "1") = true →
        paramMatches sampleDb.recipeIngredients r none = true →
        r ∈ [samplePongal])) :=
  ⟨by decide,
    recipeList_owner_scoped sampleDb 1 (some "1") none [samplePongal] (by decide)⟩

theorem update_replaces_child_sets_witness :
    Db.WF sampleDb ∧
    recipeUpdate sampleDb 1 2 sampleUpdate = .ok sampleDbUpd ∧
    ((2, 2) ∈ sampleDbUpd.recipeTags ↔
      ∃ t ∈ sampleDbUpd.tags, t.id = 2 ∧ t.user = 1 ∧ t.name ∈ ["Lunch"]) :=
  ⟨by decide, by decide,
    (update_replaces_child_sets sampleDb 1 2 sampleUpdate sampleDbUpd
      ["Lunch"] [] 2 (by decide) (by decide)).1 rfl⟩

theorem update_absent_key_frame_witness :
    recipeUpdate sampleDb 1 2 sampleUpdateNoKeys = .ok sampleDbUpd2 ∧
    (sampleDbUpd2.recipeTags = sampleDb.recipeTags ∧
     sampleDbUpd2.tags = sampleDb.tags) :=
  ⟨by decide,
    (update_absent_key_frame sampleDb 1 2 sampleUpdateNoKeys sampleDbUpd2
      (by decide)).1 rfl⟩

theorem getOrCreate_reuses_or_creates_witness :
    Db.WF sampleDb ∧
    getOrCreateTags sampleDb 1 ["Indian"] 2 =
      .ok { sampleDb with recipeTags := m2mAdd sampleDb.recipeTags 2 1 } :=
  ⟨by decide,
    (getOrCreate_reuses_or_creates sampleDb 1 2 "Indian" ⟨1, 1, "Indian"⟩
      (by decide)).1 (by decide) rfl rfl⟩

theorem duplicate_specs_idempotent_witness :
    Db.WF sampleDb ∧ 2 ≤ (["A", "A"].count "A") ∧
    ((sampleDbDup.tags.countP (fun t => t.user == 1 && t.name == "A")) = 1 ∧
      ∃ t ∈ sampleDbDup.tags, t.user = 1 ∧ t.name = "A" ∧
        sampleDbDup.recipeTags.count (2, t.id) = 1) :=
  ⟨by decide, by decide,
    (duplicate_specs_idempotent sampleDb 1 2 ["A", "A"] "A" sampleDbDup
      sampleDb (by decide) (by decide)).1 (by decide)⟩

theorem owner_forced_and_immutable_witness :
    (∃ r, sampleDbCreated.recipes = sampleDb.recipes ++ [r] ∧
      r.user = 1 ∧ r.id = 3) ∧
    (sampleDbUpd.recipes.map (fun r => (r.id, r.user)) =
      sampleDb.recipes.map (fun r => (r.id, r.user))) :=
  ⟨(owner_forced_and_immutable sampleDb 1 sampleCreate sampleDbCreated 3
      (some 99) sampleDb 1 2 sampleUpdate sampleDbUpd).2.1 (by decide),
   (owner_forced_and_immutable sampleDb 1 sampleCreate sampleDbCreated 3
      (some 99) sampleDb 1 2 sampleUpdate sampleDbUpd).2.2 (by decide)⟩

theorem list_filter_characterisation_witness :
    ("1" ≠ "") ∧ paramsToInts "1" = .ok [1] ∧
    getQueryset sampleDb 1 (some "1") (some "1") = .ok [samplePongal] ∧
    ((∀ r, r ∈ [samplePongal] ↔ r ∈ sampleDb.recipes ∧ r.user = 1 ∧
        (∃ p ∈ sampleDb.recipeTags, p.1 = r.id ∧ (p.2 : Int) ∈ [(1 : Int)]) ∧
        (∃ p ∈ sampleDb.recipeIngredients, p.1 = r.id ∧ (p.2 : Int) ∈ [(1 : Int)])) ∧
      [samplePongal].Nodup ∧ [samplePongal].Pairwise idDesc) :=
  ⟨by decide, by decide, by decide,
    (list_filter_characterisation sampleDb 1 "1" "1" [1] [1] [samplePongal]
      [samplePongal] (by decide) (by decide) (by decide) (by decide)).1
      (by decide)⟩

theorem paramsFilter_parse_failure_witness :
    ("abc" ≠ "") ∧ paramsToInts "abc" = .error () ∧
    getQueryset sampleDb 1 (some "abc") none = .serverError ∧
    getQueryset sampleDb 1 (some "1") (some "abc") = .serverError :=
  ⟨by decide, by decide,
    (paramsFilter_parse_failure sampleDb 1 "abc" "abc" (some "1") none).1
      (by decide) (by decide),
    (paramsFilter_parse_failure sampleDb 1 "abc" "abc" (some "1") none).2.1
      (by decide) (by decide)⟩

theorem upload_invalid_image_rejected_witness :
    findRecipe sampleDb 2 1 = some sampleToast ∧
    uploadImage sampleDb 2 1 ⟨"junk", false⟩ = (.validationError, sampleDb) :=
  ⟨by decide,
    upload_invalid_image_rejected sampleDb 2 1 ⟨"junk", false⟩ sampleToast
      (by decide) rfl⟩

theorem create_absent_equals_empty_witness :
    Db.WF sampleDb ∧
    recipeCreate sampleDb 1 { sampleCreate with tags := none } =
      .ok (sampleDbCreatedPlain, 3) ∧
    (3, 1) ∉ sampleDbCreatedPlain.recipeTags :=
  ⟨by decide, by decide,
    (create_absent_equals_empty sampleDb 1 sampleCreate sampleDbCreatedPlain
      sampleDb 3 1).2.2.1 (by decide) (by decide)⟩
